import Mathlib

/-
Verification development for the `astrbot_plugin_command_router` plugin
(`src/main.py`).  The Python source is shallowly embedded: the plugin's own
pure logic (catalog rebuild, prompt-response parsing, dispatch control flow)
is translated into executable Lean definitions; the host platform
(`astrbot`), Python's `json` module and the LLM backend are modelled as
explicit environment data.  Python dicts are modelled as insertion-ordered
association lists with replace-on-update (`dictSet`), Python `int` as `Int`,
and Python exceptions as an explicit `PyError` value threaded through
results.
-/

namespace CmdRouter

/-- Python dict update: replace the value at an existing key in place,
otherwise append the binding at the end (insertion order preserved). -/
def dictSet {α β : Type} [BEq α] : List (α × β) → α → β → List (α × β)
  | [], k, v => [(k, v)]
  | (k', v') :: r, k, v =>
    if k' == k then (k', v) :: r else (k', v') :: dictSet r k v

/-- A value stored in a handler-parameter descriptor: either a concrete
Python `type` object (whose `__name__` is recorded), or any other object
(for which `isinstance(v, type)` is false). -/
inductive PyParam where
  | ty (name : String)
  | nonType
deriving DecidableEq

/-- `CommandInfo` (src/main.py lines 22-41): the full pydantic record of one
host command, including nested `sub_commands`. -/
inductive CommandInfo where
  | mk (handler_full_name : String) (handler_name : String) (plugin : String)
       (plugin_display_name : Option String) (module_path : String)
       (description : String) (type' : String) (parent_signature : String)
       (parent_group_handler : String) (original_command : String)
       (current_fragment : String) (effective_command : String)
       (aliases : List String) (permission : String) (enabled : Bool)
       (is_group : Bool) (has_conflict : Bool) (reserved : Bool)
       (sub_commands : List CommandInfo)

def CommandInfo.handler_name : CommandInfo → String
  | .mk _ x _ _ _ _ _ _ _ _ _ _ _ _ _ _ _ _ _ => x

def CommandInfo.plugin : CommandInfo → String
  | .mk _ _ x _ _ _ _ _ _ _ _ _ _ _ _ _ _ _ _ => x

def CommandInfo.description : CommandInfo → String
  | .mk _ _ _ _ _ x _ _ _ _ _ _ _ _ _ _ _ _ _ => x

def CommandInfo.original_command : CommandInfo → String
  | .mk _ _ _ _ _ _ _ _ _ x _ _ _ _ _ _ _ _ _ => x

def CommandInfo.current_fragment : CommandInfo → String
  | .mk _ _ _ _ _ _ _ _ _ _ x _ _ _ _ _ _ _ _ => x

def CommandInfo.aliases : CommandInfo → List String
  | .mk _ _ _ _ _ _ _ _ _ _ _ _ x _ _ _ _ _ _ => x

def CommandInfo.permission : CommandInfo → String
  | .mk _ _ _ _ _ _ _ _ _ _ _ _ _ x _ _ _ _ _ => x

def CommandInfo.enabled : CommandInfo → Bool
  | .mk _ _ _ _ _ _ _ _ _ _ _ _ _ _ x _ _ _ _ => x

def CommandInfo.is_group : CommandInfo → Bool
  | .mk _ _ _ _ _ _ _ _ _ _ _ _ _ _ _ x _ _ _ => x

def CommandInfo.sub_commands : CommandInfo → List CommandInfo
  | .mk _ _ _ _ _ _ _ _ _ _ _ _ _ _ _ _ _ _ x => x

/-- A handler attribute on a plugin handler object: the three return shapes
the dispatcher distinguishes (src/main.py lines 266-272): a value that is
neither a coroutine nor an async iterator (nothing is yielded), a coroutine
(its awaited value is yielded once), or an async iterator (each produced
value is yielded in order). -/
inductive HandlerBehavior where
  | silentH
  | coroutineH (v : String)
  | streamH (vs : List String)
deriving DecidableEq

/-- The `star_cls` object of a plugin: its callable attributes by name. -/
structure PluginClass where
  handlers : List (String × HandlerBehavior)
deriving DecidableEq

/-- Python `hasattr(plugin_class, function_name)`. -/
def hasattr (p : PluginClass) (name : String) : Bool :=
  (p.handlers.lookup name).isSome

/-- `StarMetadata`: the host's per-plugin record, as consumed by this
plugin (`meta.desc`, `meta.activated`, `meta.star_cls`). -/
structure StarMetadata where
  desc : String
  activated : Bool
  star_cls : PluginClass
deriving DecidableEq

/-- `CommandBrief` (src/main.py lines 43-48); `args` is the dict from
argument name to the declared type's `__name__`. -/
structure CommandBrief where
  full_description : String
  command_name : String
  aliases : List String
  args : List (String × String)
  id : Int
deriving DecidableEq

/-- One host parameter descriptor's `filter_ref`: either a `CommandFilter`
(with `command_name` and `handler_params`) or some other filter type. -/
inductive FilterRef where
  | commandFilter (command_name : String) (handler_params : List (String × PyParam))
  | otherFilter

/-- The host environment consumed by the plugin: the validated result of
`command_management.list_commands()`, the descriptor list from
`command_management._collect_descriptors(include_sub_commands=True)`,
the `context.get_registered_star` lookup (modelled total: the host returns
a metadata record for every plugin name the command list mentions), and
the current chat provider (`none` models the lookup raising). -/
structure Env where
  cmd_list : List CommandInfo
  descriptors : List FilterRef
  get_registered_star : String → StarMetadata
  current_provider : Option String

/-- The mutable state of `CommandParser` (src/main.py lines 59-67). -/
structure ParserState where
  id_dict : List (Int × String)
  commands : List (Int × CommandInfo)
  brief_map : List (Int × CommandBrief)
  plugin_meta : List (String × StarMetadata)
  max_id : Int

/-- Python exceptions that the embedded code can raise. -/
inductive PyError where
  | keyError
  | typeError
  | indexError
  | attributeError
  | jsonDecodeError
  | validationError
  | noProvider (msg : String)
  | syncFailed (msg : String)
deriving DecidableEq

/-- Whether the exception is a `PluginBaseException` (src/main.py lines
16-19): only `NoProviderException` is. -/
def PyError.isPluginBase : PyError → Bool
  | .noProvider _ => true
  | _ => false

/-- Python `str(e)` for the exceptions carrying a message. -/
def PyError.str : PyError → String
  | .noProvider m => m
  | .syncFailed m => m
  | _ => ""

/-- `CommandParser.clear` (src/main.py lines 80-85): resets `max_id` to 0
and empties all four dicts, so the result is independent of the prior
state. -/
def clearState (_st : ParserState) : ParserState := ⟨[], [], [], [], 0⟩

/-- The dict comprehension
`{name: args[name].__name__ for name in args if isinstance(args[name], type)}`
(src/main.py lines 98 and 114). -/
def typedArgs (args : List (String × PyParam)) : List (String × String) :=
  args.filterMap fun p =>
    match p.2 with
    | .ty n => some (p.1, n)
    | .nonType => none

/-- The `CommandBrief` built for one sub-command of an enabled group
(src/main.py lines 102-110). -/
def mkSubBrief (meta : StarMetadata) (main_desc : String) (sub : CommandInfo)
    (arg : List (String × String)) (i : Int) : CommandBrief :=
  ⟨"插件描述：" ++ meta.desc ++ "\n指令组描述：" ++ main_desc ++
     "\n本指令描述：" ++ sub.description,
   sub.current_fragment, sub.aliases, arg, i⟩

/-- The `CommandBrief` built for an enabled non-group command
(src/main.py lines 118-125). -/
def mkLeafBrief (meta : StarMetadata) (info : CommandInfo)
    (arg : List (String × String)) (i : Int) : CommandBrief :=
  ⟨"插件描述：" ++ meta.desc ++ "\n指令描述：" ++ info.description,
   info.current_fragment, info.aliases, arg, i⟩

/-- One iteration of the sub-command loop in `_build_dicts` (src/main.py
lines 95-110).  `max_id` is incremented first; if the fragment has no
parameter descriptor, `params.get` returns `None` and iterating it in the
dict comprehension raises `TypeError`, leaving the increment in place. -/
def buildSub (meta : StarMetadata) (main_desc : String)
    (params : List (String × List (String × PyParam)))
    (st : ParserState) (sub : CommandInfo) : ParserState × Option PyError :=
  let m := st.max_id + 1
  match params.lookup sub.current_fragment with
  | none => (⟨st.id_dict, st.commands, st.brief_map, st.plugin_meta, m⟩, some .typeError)
  | some args =>
    (⟨dictSet st.id_dict m (sub.plugin ++ ":" ++ sub.original_command),
      dictSet st.commands m sub,
      dictSet st.brief_map m (mkSubBrief meta main_desc sub (typedArgs args) m),
      st.plugin_meta, m⟩, none)

/-- The `for sub_command in info.sub_commands` loop, stopping at the first
raised exception. -/
def buildSubs (meta : StarMetadata) (main_desc : String)
    (params : List (String × List (String × PyParam))) :
    ParserState → List CommandInfo → ParserState × Option PyError
  | st, [] => (st, none)
  | st, sub :: rest =>
    match buildSub meta main_desc params st sub with
    | (st', none) => buildSubs meta main_desc params st' rest
    | (st', some e) => (st', some e)

/-- The non-group branch of `_build_dicts` (src/main.py lines 111-125). -/
def buildLeaf (meta : StarMetadata)
    (params : List (String × List (String × PyParam)))
    (st : ParserState) (info : CommandInfo) : ParserState × Option PyError :=
  let m := st.max_id + 1
  match params.lookup info.current_fragment with
  | none => (⟨st.id_dict, st.commands, st.brief_map, st.plugin_meta, m⟩, some .typeError)
  | some args =>
    (⟨dictSet st.id_dict m (info.plugin ++ ":" ++ info.original_command),
      dictSet st.commands m info,
      dictSet st.brief_map m (mkLeafBrief meta info (typedArgs args) m),
      st.plugin_meta, m⟩, none)

/-- `CommandParser._build_dicts` (src/main.py lines 87-125): records the
owning plugin's metadata unconditionally, returns early for a disabled
top-level command, and otherwise expands the command into one brief per
sub-command (for a group, with no check of the sub-command's own `enabled`
flag) or one brief for the command itself. -/
def buildDicts (env : Env) (params : List (String × List (String × PyParam)))
    (st : ParserState) (info : CommandInfo) : ParserState × Option PyError :=
  let meta := env.get_registered_star info.plugin
  let st0 : ParserState :=
    ⟨st.id_dict, st.commands, st.brief_map,
     dictSet st.plugin_meta info.plugin meta, st.max_id⟩
  if info.enabled = false then (st0, none)
  else if info.is_group then buildSubs meta info.description params st0 info.sub_commands
  else buildLeaf meta params st0 info

/-- The `for cmd in cmd_list` loop of `CommandParser.initialize`
(src/main.py lines 76-78), stopping at the first raised exception. -/
def runBuild (env : Env) (params : List (String × List (String × PyParam))) :
    ParserState → List CommandInfo → ParserState × Option PyError
  | st, [] => (st, none)
  | st, info :: rest =>
    match buildDicts env params st info with
    | (st', none) => runBuild env params st' rest
    | (st', some e) => (st', some e)

/-- The dict comprehension building `params` from the host descriptors
(src/main.py lines 74-75). -/
def mkParams (descs : List FilterRef) : List (String × List (String × PyParam)) :=
  descs.foldl
    (fun d fr =>
      match fr with
      | .commandFilter name ps => dictSet d name ps
      | .otherFilter => d)
    []

/-- `CommandParser.initialize` (src/main.py lines 70-78): clear, fetch the
host command list and parameter descriptors, then build the dicts.  The
returned state is the (possibly partially mutated) parser state together
with the exception, if one was raised mid-loop. -/
def rebuildCatalog (env : Env) (st : ParserState) : ParserState × Option PyError :=
  runBuild env (mkParams env.descriptors) (clearState st) env.cmd_list

/-- The pydantic model `LLMResponse` (src/main.py lines 50-55): only
`matched` is required; the other four fields default to `None`.  JSON
numbers are carried as an integer part plus optional fraction digits. -/
structure JsonNum where
  intPart : Int
  fracPart : Option String
deriving DecidableEq

structure LLMResponse where
  matched : Bool
  id : Option Int
  parameters : Option (List String)
  confidence : Option JsonNum
  reason : Option String
deriving DecidableEq

/-- A parsed JSON value, as produced by Python's `json.loads` (objects keep
insertion order with later duplicate keys overwriting earlier ones). -/
inductive Json where
  | null
  | bool (b : Bool)
  | num (n : JsonNum)
  | str (s : String)
  | arr (xs : List Json)
  | obj (fields : List (String × Json))

/-- `re.compile(r'\x7b.*}', re.S)` (src/main.py line 133), applied by
`findall(...)[0]` (line 192): the leftmost-greedy match runs from the first
opening brace to the last closing brace of the whole text.  This helper
returns the suffix starting at the first opening brace, if any. -/
def afterBrace : List Char → Option (List Char)
  | [] => none
  | c :: r => if c = '{' then some (c :: r) else afterBrace r

/-- The first match of `\x7b.*}` with dot-matches-newline on the raw text:
`none` when the pattern has no match, in which case `findall(...)[0]`
raises `IndexError`. -/
def extractFirstJson (s : List Char) : Option (List Char) :=
  match afterBrace s with
  | none => none
  | some u =>
    let v := (u.reverse.dropWhile (fun c => c != '}')).reverse
    if v = [] then none else some v

/-- Whitespace skipped by the JSON grammar. -/
def isJsonWs (c : Char) : Bool :=
  c = ' ' || c = '\n' || c = '\t' || c = '\r'

def skipWs (s : List Char) : List Char := s.dropWhile isJsonWs

/-- JSON string escape sequences (`\u` escapes are outside the modelled
fragment). -/
def escChar (e : Char) : Option Char :=
  if e = 'n' then some '\n'
  else if e = 't' then some '\t'
  else if e = 'r' then some '\r'
  else if e = 'b' then some (Char.ofNat 8)
  else if e = 'f' then some (Char.ofNat 12)
  else if e = '"' ∨ e = '\\' ∨ e = '/' then some e
  else none

/-- Parse the body of a JSON string after the opening quote, returning the
decoded characters and the remainder after the closing quote. -/
def parseStringBody : List Char → Option (List Char × List Char)
  | [] => none
  | c :: r =>
    if c = '"' then some ([], r)
    else if c = '\\' then
      match r with
      | [] => none
      | e :: rr =>
        match escChar e, parseStringBody rr with
        | some ce, some (acc, rem) => some (ce :: acc, rem)
        | _, _ => none
    else
      match parseStringBody r with
      | some (acc, rem) => some (c :: acc, rem)
      | none => none

def isDigit (c : Char) : Bool := '0' ≤ c && c ≤ '9'

def digitsToNat (l : List Char) : Nat :=
  l.foldl (fun n c => n * 10 + (c.toNat - 48)) 0

/-- Parse a JSON number (integer part plus optional fraction; exponents are
outside the modelled fragment). -/
def parseNum (s : List Char) : Option (JsonNum × List Char) :=
  let p := match s with
    | '-' :: r => (true, r)
    | _ => (false, s)
  let ds := p.2.takeWhile isDigit
  let s2 := p.2.dropWhile isDigit
  if ds = [] then none
  else
    let i : Int := if p.1 then -(digitsToNat ds : Int) else (digitsToNat ds : Int)
    match s2 with
    | '.' :: r =>
      let fs := r.takeWhile isDigit
      let s3 := r.dropWhile isDigit
      if fs = [] then none else some (⟨i, some (String.mk fs)⟩, s3)
    | _ => some (⟨i, none⟩, s2)

mutual

/-- Recursive-descent JSON value parser (model of `json.loads`), with a
fuel argument bounding nesting; `jsonParse` supplies ample fuel. -/
def parseValue : Nat → List Char → Option (Json × List Char)
  | 0, _ => none
  | f + 1, s =>
    match skipWs s with
    | [] => none
    | '"' :: r =>
      match parseStringBody r with
      | some (cs, rem) => some (.str (String.mk cs), rem)
      | none => none
    | '{' :: r =>
      match skipWs r with
      | '}' :: rr => some (.obj [], rr)
      | _ => parseMembers f r []
    | '[' :: r =>
      match skipWs r with
      | ']' :: rr => some (.arr [], rr)
      | _ => parseElems f r []
    | 't' :: 'r' :: 'u' :: 'e' :: r => some (.bool true, r)
    | 'f' :: 'a' :: 'l' :: 's' :: 'e' :: r => some (.bool false, r)
    | 'n' :: 'u' :: 'l' :: 'l' :: r => some (.null, r)
    | s' =>
      match parseNum s' with
      | some (n, rem) => some (.num n, rem)
      | none => none

/-- Parse the members of a JSON object after the opening brace (duplicate
keys overwrite, as in Python dicts). -/
def parseMembers : Nat → List Char → List (String × Json) → Option (Json × List Char)
  | 0, _, _ => none
  | f + 1, s, acc =>
    match skipWs s with
    | '"' :: r =>
      match parseStringBody r with
      | none => none
      | some (ks, r1) =>
        match skipWs r1 with
        | ':' :: r2 =>
          match parseValue f r2 with
          | none => none
          | some (v, r3) =>
            let acc' := dictSet acc (String.mk ks) v
            match skipWs r3 with
            | ',' :: r4 => parseMembers f r4 acc'
            | '}' :: r4 => some (.obj acc', r4)
            | _ => none
        | _ => none
    | _ => none

/-- Parse the elements of a JSON array after the opening bracket. -/
def parseElems : Nat → List Char → List Json → Option (Json × List Char)
  | 0, _, _ => none
  | f + 1, s, acc =>
    match parseValue f s with
    | none => none
    | some (v, r) =>
      match skipWs r with
      | ',' :: r2 => parseElems f r2 (acc ++ [v])
      | ']' :: r2 => some (.arr (acc ++ [v]), r2)
      | _ => none

end

/-- Model of `json.loads`: parse one JSON value and require only trailing
whitespace after it. -/
def jsonParse (s : List Char) : Option Json :=
  match parseValue (s.length + 1) s with
  | none => none
  | some (v, r) => if skipWs r = [] then some v else none

/-- Pydantic coercion for `id: int | None` (missing or `null` become
`None`; a whole number becomes the int). -/
def asOptInt : Option Json → Option (Option Int)
  | none => some none
  | some .null => some none
  | some (.num ⟨i, none⟩) => some (some i)
  | some _ => none

/-- Pydantic coercion for `confidence: float | None`. -/
def asOptNum : Option Json → Option (Option JsonNum)
  | none => some none
  | some .null => some none
  | some (.num n) => some (some n)
  | some _ => none

def asStr : Json → Option String
  | .str s => some s
  | _ => none

/-- Element-wise string coercion of a JSON array, failing on the first
non-string element. -/
def mapAsStr : List Json → Option (List String)
  | [] => some []
  | x :: r =>
    match asStr x, mapAsStr r with
    | some s, some ss => some (s :: ss)
    | _, _ => none

/-- Pydantic coercion for `parameters: list[str] | None`. -/
def asOptStrList : Option Json → Option (Option (List String))
  | none => some none
  | some .null => some none
  | some (.arr xs) =>
    match mapAsStr xs with
    | some ss => some (some ss)
    | none => none
  | some _ => none

/-- Pydantic coercion for `reason: str | None`. -/
def asOptStr : Option Json → Option (Option String)
  | none => some none
  | some .null => some none
  | some (.str s) => some (some s)
  | some _ => none

/-- `LLMResponse.model_validate` (src/main.py line 193): the root must be
an object with a boolean `matched`; `id`, `parameters`, `confidence` and
`reason` are optional and independently typed; extra keys are ignored. -/
def modelValidate (j : Json) : Option LLMResponse :=
  match j with
  | .obj fs =>
    match fs.lookup "matched" with
    | some (.bool b) =>
      match asOptInt (fs.lookup "id"), asOptStrList (fs.lookup "parameters"),
            asOptNum (fs.lookup "confidence"), asOptStr (fs.lookup "reason") with
      | some i, some ps, some cf, some rs => some ⟨b, i, ps, cf, rs⟩
      | _, _, _, _ => none
    | _ => none
  | _ => none

/-- The response-parsing pipeline of `LLM.submit` (src/main.py lines
191-193): extract the first regex match (IndexError when there is none),
`json.loads` it, then validate it as an `LLMResponse`. -/
def parseLLMText (text : List Char) : Except PyError LLMResponse :=
  match extractFirstJson text with
  | none => .error .indexError
  | some t =>
    match jsonParse t with
    | none => .error .jsonDecodeError
    | some j =>
      match modelValidate j with
      | none => .error .validationError
      | some r => .ok r

/-- The message event fields this plugin reads (`AstrMessageEvent`). -/
structure Event where
  has_send_oper : Bool
  message_str : String
  is_at_or_wake_command : Bool
  is_admin : Bool
  message_id : String
  unified_msg_origin : String

/-- The plugin's configuration keys, with their host defaults already
resolved (`enable_global_match` true, `activate_by_wake` true,
`matched_tips` false, `text_provider_id` empty). -/
structure Config where
  enable_global_match : Bool
  activate_by_wake : Bool
  matched_tips : Bool
  text_provider_id : String

/-- An outgoing message: either a quote-reply chain built by
`CommandRouterPlugin.reply` (src/main.py lines 244-245), or a value
produced by an invoked handler and yielded by the dispatcher. -/
inductive Msg where
  | chainReply (message_id : String) (text : String)
  | handlerOut (payload : String)
deriving DecidableEq

/-- `CommandRouterPlugin.reply`. -/
def mkReply (ev : Event) (message : String) : Msg :=
  .chainReply ev.message_id message

/-- The messages the dispatcher yields from one handler invocation
(src/main.py lines 267-272). -/
def handlerMessages : HandlerBehavior → List Msg
  | .silentH => []
  | .coroutineH v => [.handlerOut v]
  | .streamH vs => vs.map Msg.handlerOut

/-- `LLM.get_provider` (src/main.py lines 177-184). -/
def getProvider (env : Env) (cfg : Config) : Except PyError String :=
  if cfg.text_provider_id ≠ "" then .ok cfg.text_provider_id
  else
    match env.current_provider with
    | some p => .ok p
    | none => .error (.noProvider "LLM供应商获取错误！")

/-- `LLM.submit` (src/main.py lines 186-193): resolve the provider, call
the LLM (the raw completion text is supplied by the oracle argument), then
parse the reply. -/
def submit (env : Env) (cfg : Config) (raw : String) : Except PyError LLMResponse :=
  match getProvider env cfg with
  | .error e => .error e
  | .ok _ => parseLLMText raw.data

/-- `CommandRouterPlugin.match_filter` (src/main.py lines 220-233). -/
def matchFilter (cfg : Config) (ev : Event) : Bool :=
  if ev.has_send_oper || !cfg.enable_global_match || ev.message_str = "" then false
  else if cfg.activate_by_wake && !ev.is_at_or_wake_command then false
  else true

/-- `CommandRouterPlugin.permission_filter` (src/main.py lines 235-239). -/
def permissionFilter (ev : Event) (require : String) : Bool :=
  if require = "admin" && !ev.is_admin then false else true

/-- The substring of `s` after its first colon (`s.split(":", 1)[1]`);
`none` models the `IndexError` raised when `s` has no colon. -/
def afterColon : List Char → Option (List Char)
  | [] => none
  | c :: r => if c = ':' then some r else afterColon r

/-- `CommandRouterPlugin.describe_resp` (src/main.py lines 241-242):
`id_dict[resp.id]` (KeyError when absent or when `resp.id` is `None`),
split after the first colon, then the parameter list joined by spaces
(`TypeError` when `resp.parameters` is `None`), with `无` for an empty
join. -/
def describeResp (st : ParserState) (resp : LLMResponse) : Except PyError String :=
  match resp.id with
  | none => .error .keyError
  | some i =>
    match st.id_dict.lookup i with
    | none => .error .keyError
    | some s =>
      match afterColon s.data with
      | none => .error .indexError
      | some tail =>
        match resp.parameters with
        | none => .error .typeError
        | some ps =>
          let joined := String.intercalate " " ps
          .ok (String.mk tail ++ "，参数：" ++ (if joined = "" then "无" else joined))

/-- The outcome of one `core_handler` run: the messages yielded (in
order), the exception that escaped (if any), how many automatic catalog
rebuilds ran, how many times `llm.submit` was called, which handlers were
invoked (plugin, handler name, arguments), and the parser state left
behind. -/
structure DispatchOut where
  messages : List Msg
  error : Option PyError
  resyncs : Nat
  attempts : Nat
  invocations : List (String × String × List String)
  finalState : ParserState

/-- The body of `core_handler` once
`hasattr(plugin_class, function_name) and is_sync` held (src/main.py lines
257-272): silent return for a deactivated plugin, the unauthorized reply on
permission failure, the optional matched tip, then the handler invocation
with the three return shapes. -/
def thenBranch (cfg : Config) (ev : Event) (st : ParserState)
    (resp : LLMResponse) (whole : CommandInfo) (meta : StarMetadata) : DispatchOut :=
  if meta.activated = false then ⟨[], none, 0, 1, [], st⟩
  else if permissionFilter ev whole.permission = false then
    match describeResp st resp with
    | .error e => ⟨[], some e, 0, 1, [], st⟩
    | .ok d =>
      ⟨[mkReply ev ("成功匹配指令：" ++ d ++ "，但你无权调用。")], none, 0, 1, [], st⟩
  else
    match (if cfg.matched_tips then
            match describeResp st resp with
            | .error e => .error e
            | .ok d => .ok [mkReply ev ("成功匹配指令：" ++ d ++ "。")]
          else (.ok [] : Except PyError (List Msg))) with
    | .error e => ⟨[], some e, 0, 1, [], st⟩
    | .ok tips =>
      match meta.star_cls.handlers.lookup whole.handler_name with
      | none => ⟨tips, some .attributeError, 0, 1, [], st⟩
      | some behavior =>
        match resp.parameters with
        | none => ⟨tips, some .typeError, 0, 1, [], st⟩
        | some args =>
          ⟨tips ++ handlerMessages behavior, none, 0, 1,
           [(whole.plugin, whole.handler_name, args)], st⟩

/-- `core_handler` called with `try_again=False` (the automatic retry,
src/main.py lines 247-280): `is_sync` is `True`, so the branch condition
reduces to `hasattr`; a stale check failure raises the fatal
synchronization exception instead of rebuilding again. -/
def coreHandlerRetry (env : Env) (cfg : Config) (ev : Event) (st : ParserState)
    (raw : String) : DispatchOut :=
  match submit env cfg raw with
  | .error e => ⟨[], some e, 0, 1, [], st⟩
  | .ok resp =>
    if resp.matched = false then ⟨[], none, 0, 1, [], st⟩
    else
      match resp.id with
      | none => ⟨[], some .keyError, 0, 1, [], st⟩
      | some i =>
        match st.commands.lookup i with
        | none => ⟨[], some .keyError, 0, 1, [], st⟩
        | some whole =>
          match st.plugin_meta.lookup whole.plugin with
          | none => ⟨[], some .keyError, 0, 1, [], st⟩
          | some meta =>
            if hasattr meta.star_cls whole.handler_name then
              thenBranch cfg ev st resp whole meta
            else ⟨[], some (.syncFailed "自动同步无效！"), 0, 1, [], st⟩

/-- `core_handler` called without kwargs (`try_again` defaults to `True`,
src/main.py lines 247-280).  `is_sync = False if try_again and not
meta.activated else True`, so the then-branch requires `hasattr` AND
`meta.activated`; otherwise the catalog is rebuilt
(`self.after_initialized()`) and the dispatch retried exactly once — the
retry re-invokes `llm.submit`, consuming the second oracle text. -/
def coreHandlerMain (env : Env) (cfg : Config) (ev : Event) (st : ParserState)
    (raw1 raw2 : String) : DispatchOut :=
  match submit env cfg raw1 with
  | .error e => ⟨[], some e, 0, 1, [], st⟩
  | .ok resp =>
    if resp.matched = false then ⟨[], none, 0, 1, [], st⟩
    else
      match resp.id with
      | none => ⟨[], some .keyError, 0, 1, [], st⟩
      | some i =>
        match st.commands.lookup i with
        | none => ⟨[], some .keyError, 0, 1, [], st⟩
        | some whole =>
          match st.plugin_meta.lookup whole.plugin with
          | none => ⟨[], some .keyError, 0, 1, [], st⟩
          | some meta =>
            if hasattr meta.star_cls whole.handler_name && meta.activated then
              thenBranch cfg ev st resp whole meta
            else
              match rebuildCatalog env st with
              | (st', some e) => ⟨[], some e, 1, 1, [], st'⟩
              | (st', none) =>
                let o := coreHandlerRetry env cfg ev st' raw2
                ⟨o.messages, o.error, o.resyncs + 1, o.attempts + 1,
                 o.invocations, o.finalState⟩

/-- What one message delivery leaves behind at the listener level. -/
structure ListenOut where
  messages : List Msg
  finalState : ParserState

/-- `CommandRouterPlugin.global_parser` (src/main.py lines 298-311): the
entry filter, then the core dispatch under the blanket exception boundary —
a `PluginBaseException` is reported back as a quote-reply, every other
exception is logged and swallowed; the listener always returns normally. -/
def globalParser (env : Env) (cfg : Config) (ev : Event) (st : ParserState)
    (raw1 raw2 : String) : ListenOut :=
  if matchFilter cfg ev = false then ⟨[], st⟩
  else
    let o := coreHandlerMain env cfg ev st raw1 raw2
    match o.error with
    | none => ⟨o.messages, o.finalState⟩
    | some e =>
      if e.isPluginBase then ⟨o.messages ++ [mkReply ev e.str], o.finalState⟩
      else ⟨o.messages, o.finalState⟩

/-- Sequential processing of a stream of message events by the passive
global listener, each paired with the raw LLM texts its (up to two) submit
calls would receive; returns the outgoing messages of each event. -/
def processEvents (env : Env) (cfg : Config) :
    ParserState → List (Event × String × String) → List (List Msg)
  | _, [] => []
  | st, (ev, r1, r2) :: rest =>
    let o := globalParser env cfg ev st r1 r2
    o.messages :: processEvents env cfg o.finalState rest

/-- The expected id list after a rebuild: the consecutive integers
`1 .. n`. -/
def idRange (n : Int) : List Int :=
  (List.range n.toNat).map (fun k : Nat => (k : Int) + 1)

/-- The catalog well-formedness invariant established by a completed
rebuild: `max_id` is non-negative, the three id-keyed dicts all have key
list exactly `1 .. max_id` in order, and every brief records its own key
as its `id`. -/
def GoodState (st : ParserState) : Prop :=
  0 ≤ st.max_id ∧
  st.brief_map.map Prod.fst = idRange st.max_id ∧
  st.commands.map Prod.fst = idRange st.max_id ∧
  st.id_dict.map Prod.fst = idRange st.max_id ∧
  ∀ p ∈ st.brief_map, (p.2 : CommandBrief).id = p.1

/-- How many brief entries one host command list contributes: each enabled
group contributes one per sub-command (the sub-command's own `enabled`
flag is not consulted), each enabled non-group command contributes one,
disabled top-level commands contribute none. -/
def entryCount : List CommandInfo → Int
  | [] => 0
  | info :: rest =>
    (if info.enabled then
       (if info.is_group then (info.sub_commands.length : Int) else 1)
     else 0) + entryCount rest

/-- A brief is derived from the command list when it is the sub-brief of
some sub-command of an enabled group, or the leaf brief of an enabled
non-group command. -/
def briefDerived (env : Env) (params : List (String × List (String × PyParam)))
    (b : CommandBrief) : Prop :=
  ∃ info ∈ env.cmd_list, info.enabled = true ∧
    ((info.is_group = true ∧ ∃ sub ∈ info.sub_commands, ∃ args,
        params.lookup sub.current_fragment = some args ∧
        b = mkSubBrief (env.get_registered_star info.plugin) info.description
              sub (typedArgs args) b.id) ∨
     (info.is_group = false ∧ ∃ args,
        params.lookup info.current_fragment = some args ∧
        b = mkLeafBrief (env.get_registered_star info.plugin) info
              (typedArgs args) b.id))

/-- Leftmost-greedy matching of the dot-matches-newline pattern
`\x7b.*}`: `t` is the segment from the first opening brace of `s` to the
last closing brace. -/
def ExtractSpec (s t : List Char) : Prop :=
  ∃ a c, s = a ++ t ++ c ∧ t.head? = some '{' ∧ t.getLast? = some '}' ∧
    (∀ x ∈ a, x ≠ '{') ∧ (∀ x ∈ c, x ≠ '}')

/-- Field conditions accepted by the pydantic validation of
`LLMResponse`, stated independently of `modelValidate`. -/
def FieldOptInt (o : Option Json) : Prop :=
  o = none ∨ o = some .null ∨ ∃ i : Int, o = some (.num ⟨i, none⟩)

def FieldOptNum (o : Option Json) : Prop :=
  o = none ∨ o = some .null ∨ ∃ n, o = some (.num n)

def FieldOptStr (o : Option Json) : Prop :=
  o = none ∨ o = some .null ∨ ∃ s, o = some (.str s)

def FieldOptStrList (o : Option Json) : Prop :=
  o = none ∨ o = some .null ∨ ∃ xs, o = some (.arr xs) ∧ ∀ x ∈ xs, ∃ s, x = .str s

/-- The JSON shapes that `LLMResponse.model_validate` actually accepts: an
object with a boolean `matched` and independently optional `id`,
`parameters`, `confidence`, `reason`. -/
def LooseOk (j : Json) : Prop :=
  ∃ fs, j = .obj fs ∧ (∃ b, fs.lookup "matched" = some (.bool b)) ∧
    FieldOptInt (fs.lookup "id") ∧ FieldOptStrList (fs.lookup "parameters") ∧
    FieldOptNum (fs.lookup "confidence") ∧ FieldOptStr (fs.lookup "reason")

/-- Modelled from the spec: the `MatchResult` conformance the spec
describes — exactly one of the two shapes, matched-true with
`id`/`parameters`/`confidence` present (`parameters` a sequence), or
matched-false with `reason`. -/
def specConforms (j : Json) : Bool :=
  match j with
  | .obj fs =>
    (match fs.lookup "matched", fs.lookup "id", fs.lookup "parameters",
           fs.lookup "confidence" with
     | some (.bool true), some (.num _), some (.arr _), some (.num _) => true
     | _, _, _, _ => false) ||
    (match fs.lookup "matched", fs.lookup "reason" with
     | some (.bool false), some (.str _) => true
     | _, _ => false)
  | _ => false

/-- Modelled from the spec: the staleness condition as the spec states it
— target plugin not activated, OR first attempt and handler name missing
on the plugin's handler class. -/
def specStale (try_again activated hasH : Bool) : Bool :=
  !activated || (try_again && !hasH)

/-- The staleness condition the code tests: the else-branch of
`hasattr(plugin_class, function_name) and is_sync` with
`is_sync = False if try_again and not meta.activated else True`
(src/main.py lines 256-257) — handler name missing, OR first attempt and
plugin not activated. -/
def codeStale (try_again activated hasH : Bool) : Bool :=
  !hasH || (try_again && !activated)

/-- An empty parser state, as after `clear`. -/
def st0 : ParserState := ⟨[], [], [], [], 0⟩

/-- Fixture: a disabled sub-command of an enabled group. -/
def subDis : CommandInfo :=
  .mk "pA.h_sub" "h_sub" "pA" none "modA" "sub desc" "" "" "" "grp sub" "sub"
      "grp sub" [] "all" false false false false []

/-- Fixture: an enabled group whose only sub-command is disabled. -/
def grpCmd : CommandInfo :=
  .mk "pA.h_grp" "h_grp" "pA" none "modA" "group desc" "" "" "" "grp" "grp"
      "grp" [] "all" true true false false [subDis]

def metaA : StarMetadata := ⟨"descA", true, ⟨[("h_sub", .coroutineH "okA")]⟩⟩

/-- Fixture environment for the group-with-disabled-sub scenario. -/
def envA : Env :=
  ⟨[grpCmd], [.commandFilter "sub" []], fun _ => metaA, some "prov"⟩

/-- Fixture: an enabled leaf command of a deactivated plugin whose handler
does exist on the handler class. -/
def cmdB : CommandInfo :=
  .mk "pB.hb" "hb" "pB" none "modB" "descB" "" "" "" "cmdb" "cmdb" "cmdb" []
      "all" true false false false []

def metaB : StarMetadata := ⟨"descB", false, ⟨[("hb", .coroutineH "vb")]⟩⟩

def envB : Env :=
  ⟨[cmdB], [.commandFilter "cmdb" []], fun _ => metaB, some "prov"⟩

/-- The parser state after a completed rebuild against `envB`. -/
def stB : ParserState := (rebuildCatalog envB st0).1

/-- Fixture: two enabled leaf commands of one activated plugin; the first
one's handler name is missing from the handler class. -/
def cmdC1 : CommandInfo :=
  .mk "pC.h_missing" "h_missing" "pC" none "modC" "descC1" "" "" "" "c1" "c1"
      "c1" [] "all" true false false false []

def cmdC2 : CommandInfo :=
  .mk "pC.h2" "h2" "pC" none "modC" "descC2" "" "" "" "c2" "c2" "c2" [] "all"
      true false false false []

def metaC : StarMetadata := ⟨"descC", true, ⟨[("h2", .coroutineH "v2")]⟩⟩

def envC : Env :=
  ⟨[cmdC1, cmdC2], [.commandFilter "c1" [], .commandFilter "c2" []],
   fun _ => metaC, some "prov"⟩

def stC : ParserState := (rebuildCatalog envC st0).1

/-- Fixture: an admin-only command of an activated plugin. -/
def cmdD : CommandInfo :=
  .mk "pD.hd" "hd" "pD" none "modD" "descD" "" "" "" "dcmd" "d" "d" []
      "admin" true false false false []

def metaD : StarMetadata := ⟨"descD", true, ⟨[("hd", .silentH)]⟩⟩

def envD : Env :=
  ⟨[cmdD], [.commandFilter "d" []], fun _ => metaD, some "prov"⟩

def stD : ParserState := (rebuildCatalog envD st0).1

/-- The flattened traversal of a host command list, as the rebuild expands
it: enabled groups contribute their sub-commands in place, enabled
non-group commands contribute themselves, disabled top-level commands
contribute nothing.  The i-th element (from 1) is the command record the
rebuild stores under id i. -/
def enabledLeaves : List CommandInfo → List CommandInfo
  | [] => []
  | info :: rest =>
    (if info.enabled then (if info.is_group then info.sub_commands else [info]) else [])
      ++ enabledLeaves rest

/-- Fixture: a host environment whose command list reports the same
command record twice (the rebuild does not deduplicate). -/
def envE : Env :=
  ⟨[cmdB, cmdB], [.commandFilter "cmdb" []], fun _ => metaB, some "prov"⟩

/-- The parser state after a completed rebuild against `envE`. -/
def stE : ParserState := (rebuildCatalog envE st0).1

/-- A configuration with all defaults except an explicit provider id. -/
def cfg0 : Config := ⟨true, true, false, "tp"⟩

/-- A plain non-admin message event that passes the entry filter. -/
def ev0 : Event := ⟨false, "hello", true, false, "mid0", "umo0"⟩

/-- Raw LLM reply: matched, id 1, no parameters. -/
def rawId1 : String :=
  "\x7b\"matched\": true, \"id\": 1, \"parameters\": [], \"confidence\": 1\x7d"

/-- Raw LLM reply: matched, id 2, no parameters. -/
def rawId2 : String :=
  "\x7b\"matched\": true, \"id\": 2, \"parameters\": [], \"confidence\": 1\x7d"

/-- Raw LLM reply: matched, id 1, one parameter. -/
def rawId1P : String :=
  "\x7b\"matched\": true, \"id\": 1, \"parameters\": [\"x\"], \"confidence\": 1\x7d"

/-- Raw LLM reply: matched, id 5 (an id no rebuild of the fixtures
assigns). -/
def rawId5 : String :=
  "\x7b\"matched\": true, \"id\": 5, \"parameters\": [], \"confidence\": 1\x7d"

/-- Raw LLM reply with no JSON object substring at all. -/
def rawNoJson : String := "I cannot parse that message at all"

/-! Helper lemmas about association lists and id ranges. -/

theorem lookup_mem {α β : Type} [BEq α] [LawfulBEq α] {l : List (α × β)} {k : α} {v : β}
    (h : l.lookup k = some v) : (k, v) ∈ l := by
  induction l with
  | nil => simp [List.lookup] at h
  | cons p r ih =>
    obtain ⟨a, b⟩ := p
    simp only [List.lookup] at h
    split at h
    · next heq =>
      cases h
      have : k = a := eq_of_beq heq
      subst this
      exact List.mem_cons_self _ _
    · exact List.mem_cons_of_mem _ (ih h)

theorem dictSet_fresh {α β : Type} [BEq α] [LawfulBEq α] (l : List (α × β)) (k : α) (v : β)
    (h : ∀ p ∈ l, ¬ p.1 = k) : dictSet l k v = l ++ [(k, v)] := by
  induction l with
  | nil => rfl
  | cons p r ih =>
    obtain ⟨a, b⟩ := p
    have ha : ¬ a = k := h (a, b) (List.mem_cons_self _ _)
    simp only [dictSet]
    rw [if_neg (by simpa using ha)]
    rw [ih (fun q hq => h q (List.mem_cons_of_mem _ hq))]
    rfl

theorem idRange_succ {n : Int} (h : 0 ≤ n) : idRange (n + 1) = idRange n ++ [n + 1] := by
  have h1 : (n + 1).toNat = n.toNat + 1 := by omega
  have h2 : ((n.toNat : Int) + 1) = n + 1 := by omega
  simp only [idRange, h1, List.range_succ, List.map_append, List.map_cons, List.map_nil, h2]

theorem mem_idRange {k n : Int} (h : k ∈ idRange n) : 1 ≤ k ∧ k ≤ n := by
  simp only [idRange, List.mem_map, List.mem_range] at h
  obtain ⟨j, hj, rfl⟩ := h
  omega

theorem goodState_clear {st : ParserState} : GoodState (clearState st) := by
  refine ⟨le_refl 0, rfl, rfl, rfl, ?_⟩
  intro p hp
  simp [clearState] at hp

/-! Characterization of one successful catalog build step. -/

theorem buildSub_ok {meta : StarMetadata} {md : String}
    {params : List (String × List (String × PyParam))} {st : ParserState}
    {sub : CommandInfo} {st' : ParserState}
    (h : buildSub meta md params st sub = (st', none)) :
    ∃ args, params.lookup sub.current_fragment = some args ∧
      st' = ⟨dictSet st.id_dict (st.max_id + 1) (sub.plugin ++ ":" ++ sub.original_command),
             dictSet st.commands (st.max_id + 1) sub,
             dictSet st.brief_map (st.max_id + 1)
               (mkSubBrief meta md sub (typedArgs args) (st.max_id + 1)),
             st.plugin_meta, st.max_id + 1⟩ := by
  unfold buildSub at h
  split at h
  · simp at h
  · next args heq =>
    refine ⟨args, heq, ?_⟩
    have := congrArg Prod.fst h
    simpa using this.symm

theorem buildLeaf_ok {meta : StarMetadata}
    {params : List (String × List (String × PyParam))} {st : ParserState}
    {info : CommandInfo} {st' : ParserState}
    (h : buildLeaf meta params st info = (st', none)) :
    ∃ args, params.lookup info.current_fragment = some args ∧
      st' = ⟨dictSet st.id_dict (st.max_id + 1) (info.plugin ++ ":" ++ info.original_command),
             dictSet st.commands (st.max_id + 1) info,
             dictSet st.brief_map (st.max_id + 1)
               (mkLeafBrief meta info (typedArgs args) (st.max_id + 1)),
             st.plugin_meta, st.max_id + 1⟩ := by
  unfold buildLeaf at h
  split at h
  · simp at h
  · next args heq =>
    refine ⟨args, heq, ?_⟩
    have := congrArg Prod.fst h
    simpa using this.symm

/-! Freshness of the next id against the invariant. -/

theorem fresh_of_range {l : List (Int × α)} {n : Int}
    (hl : l.map Prod.fst = idRange n) : ∀ p ∈ l, ¬ p.1 = n + 1 := by
  intro p hp hpe
  have hmem : p.1 ∈ idRange n := hl ▸ List.mem_map_of_mem Prod.fst hp
  have := mem_idRange hmem
  omega

theorem goodState_step {st : ParserState} (hg : GoodState st)
    (s : String) (c : CommandInfo) (b : CommandBrief) (hb : b.id = st.max_id + 1) :
    GoodState ⟨dictSet st.id_dict (st.max_id + 1) s,
               dictSet st.commands (st.max_id + 1) c,
               dictSet st.brief_map (st.max_id + 1) b,
               st.plugin_meta, st.max_id + 1⟩ := by
  obtain ⟨h0, hbm, hcm, him, hid⟩ := hg
  rw [dictSet_fresh _ _ _ (fresh_of_range hbm), dictSet_fresh _ _ _ (fresh_of_range hcm),
      dictSet_fresh _ _ _ (fresh_of_range him)]
  refine ⟨?_, ?_, ?_, ?_, ?_⟩
  · show (0 : Int) ≤ st.max_id + 1
    omega
  · show (st.brief_map ++ [(st.max_id + 1, b)]).map Prod.fst = idRange (st.max_id + 1)
    simp only [List.map_append, hbm, List.map_cons, List.map_nil]
    exact (idRange_succ h0).symm
  · show (st.commands ++ [(st.max_id + 1, c)]).map Prod.fst = idRange (st.max_id + 1)
    simp only [List.map_append, hcm, List.map_cons, List.map_nil]
    exact (idRange_succ h0).symm
  · show (st.id_dict ++ [(st.max_id + 1, s)]).map Prod.fst = idRange (st.max_id + 1)
    simp only [List.map_append, him, List.map_cons, List.map_nil]
    exact (idRange_succ h0).symm
  · intro p hp
    rcases List.mem_append.mp hp with hold | hnew
    · exact hid p hold
    · simp only [List.mem_singleton] at hnew
      subst hnew
      exact hb

theorem buildSub_good {meta : StarMetadata} {md : String}
    {params : List (String × List (String × PyParam))} {st : ParserState}
    {sub : CommandInfo} {st' : ParserState} (hg : GoodState st)
    (h : buildSub meta md params st sub = (st', none)) : GoodState st' := by
  obtain ⟨args, -, rfl⟩ := buildSub_ok h
  exact goodState_step hg _ _ _ rfl

theorem buildLeaf_good {meta : StarMetadata}
    {params : List (String × List (String × PyParam))} {st : ParserState}
    {info : CommandInfo} {st' : ParserState} (hg : GoodState st)
    (h : buildLeaf meta params st info = (st', none)) : GoodState st' := by
  obtain ⟨args, -, rfl⟩ := buildLeaf_ok h
  exact goodState_step hg _ _ _ rfl

theorem buildSubs_good {meta : StarMetadata} {md : String}
    {params : List (String × List (String × PyParam))} (subs : List CommandInfo) :
    ∀ st st', GoodState st → buildSubs meta md params st subs = (st', none) →
      GoodState st' := by
  induction subs with
  | nil =>
    intro st st' hg h
    simp only [buildSubs] at h
    cases h
    exact hg
  | cons sub rest ih =>
    intro st st' hg h
    simp only [buildSubs] at h
    split at h
    · next st1 hstep => exact ih _ _ (buildSub_good hg hstep) h
    · next st1 e hstep => simp at h

theorem buildDicts_good {env : Env} {params : List (String × List (String × PyParam))}
    {st : ParserState} {info : CommandInfo} {st' : ParserState} (hg : GoodState st)
    (h : buildDicts env params st info = (st', none)) : GoodState st' := by
  have hg0 : GoodState ⟨st.id_dict, st.commands, st.brief_map,
      dictSet st.plugin_meta info.plugin (env.get_registered_star info.plugin),
      st.max_id⟩ := hg
  unfold buildDicts at h
  split at h
  · cases h; exact hg0
  · split at h
    · exact buildSubs_good _ _ _ hg0 h
    · exact buildLeaf_good hg0 h

theorem runBuild_good {env : Env} {params : List (String × List (String × PyParam))}
    (l : List CommandInfo) :
    ∀ st st', GoodState st → runBuild env params st l = (st', none) → GoodState st' := by
  induction l with
  | nil =>
    intro st st' hg h
    simp only [runBuild] at h
    cases h
    exact hg
  | cons info rest ih =>
    intro st st' hg h
    simp only [runBuild] at h
    split at h
    · next st1 hstep => exact ih _ _ (buildDicts_good hg hstep) h
    · next st1 e hstep => simp at h

theorem rebuild_good {env : Env} {st st' : ParserState}
    (h : rebuildCatalog env st = (st', none)) : GoodState st' :=
  runBuild_good _ _ _ goodState_clear h

/-! Accounting of `max_id` across a successful rebuild. -/

theorem buildSubs_max {meta : StarMetadata} {md : String}
    {params : List (String × List (String × PyParam))} (subs : List CommandInfo) :
    ∀ st st', buildSubs meta md params st subs = (st', none) →
      st'.max_id = st.max_id + (subs.length : Int) := by
  induction subs with
  | nil =>
    intro st st' h
    simp only [buildSubs] at h
    cases h
    simp
  | cons sub rest ih =>
    intro st st' h
    simp only [buildSubs] at h
    split at h
    · next st1 hstep =>
      obtain ⟨args, -, rfl⟩ := buildSub_ok hstep
      have := ih _ _ h
      simp only [this]
      simp only [List.length_cons]
      push_cast
      ring
    · next st1 e hstep => simp at h

theorem buildDicts_max {env : Env} {params : List (String × List (String × PyParam))}
    {st : ParserState} {info : CommandInfo} {st' : ParserState}
    (h : buildDicts env params st info = (st', none)) :
    st'.max_id = st.max_id +
      (if info.enabled then
         (if info.is_group then (info.sub_commands.length : Int) else 1)
       else 0) := by
  unfold buildDicts at h
  split at h
  · next hen =>
    cases h
    simp [hen]
  · next hen =>
    have hen' : info.enabled = true := by
      cases he : info.enabled
      · exact absurd he hen
      · rfl
    split at h
    · next hgr =>
      have := buildSubs_max _ _ _ h
      simp only [this, hen', hgr, if_true]
    · next hgr =>
      have hgr' : info.is_group = false := by
        cases hg : info.is_group
        · rfl
        · exact absurd hg hgr
      obtain ⟨args, -, rfl⟩ := buildLeaf_ok h
      simp [hen', hgr']

theorem runBuild_max {env : Env} {params : List (String × List (String × PyParam))}
    (l : List CommandInfo) :
    ∀ st st', runBuild env params st l = (st', none) →
      st'.max_id = st.max_id + entryCount l := by
  induction l with
  | nil =>
    intro st st' h
    simp only [runBuild] at h
    cases h
    simp [entryCount]
  | cons info rest ih =>
    intro st st' h
    simp only [runBuild] at h
    split at h
    · next st1 hstep =>
      have h1 := buildDicts_max hstep
      have h2 := ih _ _ h
      simp only [h2, h1, entryCount]
      ring
    · next st1 e hstep => simp at h

/-! The full-record map's values are the flattened traversal. -/

theorem buildSubs_vals {meta : StarMetadata} {md : String}
    {params : List (String × List (String × PyParam))} (subs : List CommandInfo) :
    ∀ st st', GoodState st → buildSubs meta md params st subs = (st', none) →
      st'.commands.map Prod.snd = st.commands.map Prod.snd ++ subs := by
  induction subs with
  | nil =>
    intro st st' hg h
    simp only [buildSubs] at h
    cases h
    simp
  | cons sub rest ih =>
    intro st st' hg h
    simp only [buildSubs] at h
    split at h
    · next st1 hstep =>
      obtain ⟨args, -, hst1⟩ := buildSub_ok hstep
      have hgood := buildSub_good hg hstep
      have h2 := ih _ _ hgood h
      have hcomm : st1.commands = dictSet st.commands (st.max_id + 1) sub := by
        rw [hst1]
      rw [hcomm, dictSet_fresh _ _ _ (fresh_of_range hg.2.2.1)] at h2
      rw [h2]
      simp
    · next st1 e hstep => simp at h

theorem buildDicts_vals {env : Env} {params : List (String × List (String × PyParam))}
    {st : ParserState} {info : CommandInfo} {st' : ParserState} (hg : GoodState st)
    (h : buildDicts env params st info = (st', none)) :
    st'.commands.map Prod.snd = st.commands.map Prod.snd ++
      (if info.enabled then (if info.is_group then info.sub_commands else [info])
       else []) := by
  have hg0 : GoodState ⟨st.id_dict, st.commands, st.brief_map,
      dictSet st.plugin_meta info.plugin (env.get_registered_star info.plugin),
      st.max_id⟩ := hg
  unfold buildDicts at h
  split at h
  · next hen =>
    cases h
    simp [hen]
  · next hen =>
    have hen' : info.enabled = true := by
      cases he : info.enabled
      · exact absurd he hen
      · rfl
    split at h
    · next hgr =>
      have hv := buildSubs_vals _ _ _ hg0 h
      rw [hen', hgr]
      simpa using hv
    · next hgr =>
      have hgr' : info.is_group = false := by
        cases hg2 : info.is_group
        · rfl
        · exact absurd hg2 hgr
      obtain ⟨args, -, hst'⟩ := buildLeaf_ok h
      have hcomm : st'.commands = dictSet st.commands (st.max_id + 1) info := by
        rw [hst']
      rw [hcomm, dictSet_fresh _ _ _ (fresh_of_range hg.2.2.1), hen', hgr']
      simp

theorem runBuild_vals {env : Env} {params : List (String × List (String × PyParam))}
    (l : List CommandInfo) :
    ∀ st st', GoodState st → runBuild env params st l = (st', none) →
      st'.commands.map Prod.snd = st.commands.map Prod.snd ++ enabledLeaves l := by
  induction l with
  | nil =>
    intro st st' hg h
    simp only [runBuild] at h
    cases h
    simp [enabledLeaves]
  | cons info rest ih =>
    intro st st' hg h
    simp only [runBuild] at h
    split at h
    · next st1 hstep =>
      have h1 := buildDicts_vals hg hstep
      have h2 := ih _ _ (buildDicts_good hg hstep) h
      rw [h2, h1, enabledLeaves]
      simp [List.append_assoc]
    · next st1 e hstep => simp at h

/-! Derivation of every brief from the host command list. -/

theorem buildSubs_derived {env : Env} {params : List (String × List (String × PyParam))}
    {info : CommandInfo} (hinfo : info ∈ env.cmd_list) (hen : info.enabled = true)
    (hgr : info.is_group = true) (subs : List CommandInfo)
    (hsubs : ∀ s ∈ subs, s ∈ info.sub_commands) :
    ∀ st st', GoodState st → (∀ p ∈ st.brief_map, briefDerived env params p.2) →
      buildSubs (env.get_registered_star info.plugin) info.description params st subs
        = (st', none) →
      ∀ p ∈ st'.brief_map, briefDerived env params p.2 := by
  induction subs with
  | nil =>
    intro st st' hg hd h
    simp only [buildSubs] at h
    cases h
    exact hd
  | cons sub rest ih =>
    intro st st' hg hd h
    simp only [buildSubs] at h
    split at h
    · next st1 hstep =>
      obtain ⟨args, hargs, rfl⟩ := buildSub_ok hstep
      refine ih (fun s hs => hsubs s (List.mem_cons_of_mem _ hs)) _ _
        (buildSub_good hg hstep) ?_ h
      intro p hp
      rw [dictSet_fresh _ _ _ (fresh_of_range hg.2.1)] at hp
      rcases List.mem_append.mp hp with hold | hnew
      · exact hd p hold
      · simp only [List.mem_singleton] at hnew
        subst hnew
        refine ⟨info, hinfo, hen, Or.inl ⟨hgr, sub, hsubs sub (List.mem_cons_self _ _),
          args, hargs, rfl⟩⟩
    · next st1 e hstep => simp at h

theorem buildDicts_derived {env : Env} {params : List (String × List (String × PyParam))}
    {st : ParserState} {info : CommandInfo} {st' : ParserState}
    (hinfo : info ∈ env.cmd_list) (hg : GoodState st)
    (hd : ∀ p ∈ st.brief_map, briefDerived env params p.2)
    (h : buildDicts env params st info = (st', none)) :
    ∀ p ∈ st'.brief_map, briefDerived env params p.2 := by
  have hg0 : GoodState ⟨st.id_dict, st.commands, st.brief_map,
      dictSet st.plugin_meta info.plugin (env.get_registered_star info.plugin),
      st.max_id⟩ := hg
  unfold buildDicts at h
  split at h
  · cases h; exact hd
  · next hen =>
    have hen' : info.enabled = true := by
      cases he : info.enabled
      · exact absurd he hen
      · rfl
    split at h
    · next hgr =>
      exact buildSubs_derived hinfo hen' hgr _ (fun s hs => hs) _ _ hg0 hd h
    · next hgr =>
      have hgr' : info.is_group = false := by
        cases hg2 : info.is_group
        · rfl
        · exact absurd hg2 hgr
      obtain ⟨args, hargs, rfl⟩ := buildLeaf_ok h
      intro p hp
      rw [dictSet_fresh _ _ _ (fresh_of_range hg0.2.1)] at hp
      rcases List.mem_append.mp hp with hold | hnew
      · exact hd p hold
      · simp only [List.mem_singleton] at hnew
        subst hnew
        exact ⟨info, hinfo, hen', Or.inr ⟨hgr', args, hargs, rfl⟩⟩

theorem runBuild_derived {env : Env} {params : List (String × List (String × PyParam))}
    (l : List CommandInfo) (hl : ∀ i ∈ l, i ∈ env.cmd_list) :
    ∀ st st', GoodState st → (∀ p ∈ st.brief_map, briefDerived env params p.2) →
      runBuild env params st l = (st', none) →
      ∀ p ∈ st'.brief_map, briefDerived env params p.2 := by
  induction l with
  | nil =>
    intro st st' _ hd h
    simp only [runBuild] at h
    cases h
    exact hd
  | cons info rest ih =>
    intro st st' hg hd h
    simp only [runBuild] at h
    split at h
    · next st1 hstep =>
      exact ih (fun i hi => hl i (List.mem_cons_of_mem _ hi)) _ _
        (buildDicts_good hg hstep)
        (buildDicts_derived (hl info (List.mem_cons_self _ _)) hg hd hstep) h
    · next st1 e hstep => simp at h

/-- C1 counterexample: the rebuild of `envA` (one enabled group whose only
sub-command is disabled) puts a brief derived from the disabled
sub-command into the brief map, so "for every CommandRecord r with
r.enabled == false ... no id in the brief map maps to a brief derived
from r" fails: the sub-command loop never consults the sub-command's
`enabled` flag. -/
theorem c1_counterexample :
    subDis.enabled = false ∧
    (rebuildCatalog envA st0).2 = none ∧
    (rebuildCatalog envA st0).1.brief_map
      = [(1, mkSubBrief metaA "group desc" subDis (typedArgs []) 1)] :=
  ⟨rfl, rfl, rfl⟩

/-- C1 (amended): after every completed catalog rebuild, the brief map has
exactly one entry per sub-command of each enabled group (regardless of the
sub-command's own `enabled` flag) plus one per enabled non-group command,
never one for a group itself, and nothing for a disabled top-level
command: every brief is derived from an enabled top-level command, as a
sub-brief of one of its sub-commands or as its leaf brief. -/
theorem c1_theorem (env : Env) (st st' : ParserState)
    (h : rebuildCatalog env st = (st', none)) :
    (st'.brief_map.length : Int) = entryCount env.cmd_list ∧
    ∀ p ∈ st'.brief_map, briefDerived env (mkParams env.descriptors) p.2 := by
  have h' : runBuild env (mkParams env.descriptors) (clearState st) env.cmd_list
      = (st', none) := h
  have hg := rebuild_good h
  constructor
  · have hmax := runBuild_max env.cmd_list _ _ h'
    have hlen : st'.brief_map.length = (idRange st'.max_id).length := by
      rw [← hg.2.1, List.length_map]
    have hlen2 : (idRange st'.max_id).length = st'.max_id.toNat := by
      simp [idRange]
    rw [hlen, hlen2, Int.toNat_of_nonneg hg.1, hmax]
    show (0 : Int) + entryCount env.cmd_list = entryCount env.cmd_list
    ring
  · exact runBuild_derived env.cmd_list (fun i hi => hi) _ _ goodState_clear
      (by intro p hp; simp [clearState] at hp) h'

/-- C1 witness: the group fixture rebuild has exactly one brief entry (its
group has one sub-command), and that entry is derived from the command
list. -/
theorem c1_witness :
    ((rebuildCatalog envA st0).1.brief_map.length : Int) = entryCount envA.cmd_list ∧
    briefDerived envA (mkParams envA.descriptors)
      (mkSubBrief metaA "group desc" subDis (typedArgs []) 1) := by
  have h := c1_theorem envA st0 (rebuildCatalog envA st0).1 rfl
  refine ⟨h.1, ?_⟩
  have hm : (1, mkSubBrief metaA "group desc" subDis (typedArgs []) 1)
      ∈ (rebuildCatalog envA st0).1.brief_map := List.mem_singleton.mpr rfl
  exact h.2 _ hm

/-- C5 counterexample: the rebuild does not deduplicate — against a host
list reporting the same command record twice, the distinct ids 1 and 2
both map to that one underlying record, and their briefs agree in every
field except the stored id.  So "any two distinct ids map to briefs
describing different underlying commands" fails. -/
theorem c5_counterexample :
    (rebuildCatalog envE st0).2 = none ∧
    stE.commands.lookup 1 = some cmdB ∧
    stE.commands.lookup 2 = some cmdB ∧
    stE.brief_map.lookup 1 = some (mkLeafBrief metaB cmdB (typedArgs []) 1) ∧
    stE.brief_map.lookup 2 = some (mkLeafBrief metaB cmdB (typedArgs []) 2) ∧
    (1 : Int) ≠ 2 :=
  ⟨rfl, rfl, rfl, rfl, rfl, by decide⟩

/-- C5 (amended): after every completed catalog rebuild, the key lists of
the brief map, the full-record map, and the id-description map are all
exactly the consecutive integers 1..max_id in traversal order; the
full-record map's values in id order are exactly the flattened traversal
of the host list (each enabled group replaced by its sub-commands), so
each id denotes one distinct traversal occurrence — the same underlying
record can hold two ids exactly when the host list repeats it — and every
brief stores its own id as its `id` field. -/
theorem c5_theorem (env : Env) (st st' : ParserState)
    (h : rebuildCatalog env st = (st', none)) :
    st'.brief_map.map Prod.fst = idRange st'.max_id ∧
    st'.commands.map Prod.fst = idRange st'.max_id ∧
    st'.id_dict.map Prod.fst = idRange st'.max_id ∧
    st'.commands.map Prod.snd = enabledLeaves env.cmd_list ∧
    ∀ p ∈ st'.brief_map, (p.2 : CommandBrief).id = p.1 := by
  have h' : runBuild env (mkParams env.descriptors) (clearState st) env.cmd_list
      = (st', none) := h
  have hg := rebuild_good h
  refine ⟨hg.2.1, hg.2.2.1, hg.2.2.2.1, ?_, hg.2.2.2.2⟩
  have hv := runBuild_vals env.cmd_list _ _ goodState_clear h'
  simpa [clearState] using hv

/-- C5 witness: concrete two-command rebuild — key list is `idRange`, the
stored records are the two leaves in traversal order, and the brief at id
1 stores id 1. -/
theorem c5_witness :
    stC.brief_map.map Prod.fst = idRange stC.max_id ∧
    stC.commands.map Prod.snd = enabledLeaves envC.cmd_list ∧
    (mkLeafBrief metaC cmdC1 (typedArgs []) 1).id = 1 := by
  have h := c5_theorem envC st0 stC rfl
  refine ⟨h.1, h.2.2.2.1, ?_⟩
  exact h.2.2.2.2 (1, mkLeafBrief metaC cmdC1 (typedArgs []) 1) (by decide)

/-- C9: the rebuild result is independent of the prior parser state (clear
fully resets it), so for a fixed host environment rebuilding twice in a
row yields the identical catalog — same briefs and same id assignment. -/
theorem c9_theorem :
    (∀ (env : Env) (s1 s2 : ParserState), rebuildCatalog env s1 = rebuildCatalog env s2) ∧
    (∀ (env : Env) (st st' : ParserState), rebuildCatalog env st = (st', none) →
      rebuildCatalog env st' = (st', none)) := by
  constructor
  · intro env s1 s2
    rfl
  · intro env st st' h
    calc rebuildCatalog env st' = rebuildCatalog env st := rfl
    _ = (st', none) := h

/-- C9 witness: rebuilding again from the already-rebuilt fixture state
reproduces it exactly. -/
theorem c9_witness : rebuildCatalog envC stC = (stC, none) :=
  c9_theorem.2 envC st0 stC rfl

/-! Characterization of the regex extraction. -/

theorem afterBrace_spec (s : List Char) :
    ∀ u, afterBrace s = some u ↔
      ∃ a, s = a ++ u ∧ (∀ x ∈ a, x ≠ '{') ∧ u.head? = some '{' := by
  induction s with
  | nil =>
    intro u
    constructor
    · intro h
      simp [afterBrace] at h
    · rintro ⟨a, heq, -, hh⟩
      obtain ⟨rfl, rfl⟩ := List.append_eq_nil.mp heq.symm
      simp at hh
  | cons c r ih =>
    intro u
    simp only [afterBrace]
    by_cases hc : c = '{'
    · subst hc
      rw [if_pos rfl]
      constructor
      · intro h
        cases h
        exact ⟨[], rfl, by simp, rfl⟩
      · rintro ⟨a, heq, ha, hh⟩
        cases a with
        | nil =>
          simp only [List.nil_append] at heq
          rw [← heq]
        | cons a0 a' =>
          exfalso
          have h0 : a0 = '{' := by
            have := congrArg List.head? heq
            simpa using this.symm
          exact ha a0 (List.mem_cons_self _ _) h0
    · rw [if_neg hc, ih u]
      constructor
      · rintro ⟨a, heq, ha, hh⟩
        refine ⟨c :: a, by rw [List.cons_append, heq], ?_, hh⟩
        intro x hx
        rcases List.mem_cons.mp hx with rfl | hx'
        · exact hc
        · exact ha x hx'
      · rintro ⟨a, heq, ha, hh⟩
        cases a with
        | nil =>
          exfalso
          apply hc
          simp only [List.nil_append] at heq
          rw [← heq] at hh
          simpa using hh
        | cons a0 a' =>
          injection heq with h1 h2
          exact ⟨a', h2, fun x hx => ha x (List.mem_cons_of_mem _ hx), hh⟩

theorem extractFirstJson_iff (s t : List Char) :
    extractFirstJson s = some t ↔ ExtractSpec s t := by
  constructor
  · intro h
    unfold extractFirstJson at h
    cases hab : afterBrace s with
    | none => rw [hab] at h; simp at h
    | some u =>
      rw [hab] at h
      simp only at h
      obtain ⟨a, hs, ha, hu⟩ := (afterBrace_spec s u).mp hab
      obtain ⟨tk, htk⟩ : ∃ tk, u.reverse.takeWhile (fun c => c != '}') = tk := ⟨_, rfl⟩
      obtain ⟨w, hwd⟩ : ∃ w, u.reverse.dropWhile (fun c => c != '}') = w := ⟨_, rfl⟩
      rw [hwd] at h
      have htw : tk ++ w = u.reverse := by
        rw [← htk, ← hwd]
        exact List.takeWhile_append_dropWhile _ _
      have hudecomp : u = w.reverse ++ tk.reverse := by
        have h2 := congrArg List.reverse htw
        rw [List.reverse_append, List.reverse_reverse] at h2
        exact h2.symm
      split at h
      · simp at h
      · next hne =>
        cases h
        have hwne : w ≠ [] := by
          intro hnil
          exact hne (by rw [hnil]; rfl)
        refine ⟨a, tk.reverse, ?_, ?_, ?_, ha, ?_⟩
        · rw [hs, hudecomp, List.append_assoc]
        · cases hv : w.reverse with
          | nil => exact absurd hv hne
          | cons y ys =>
            have hhy : u.head? = some y := by
              rw [hudecomp, hv]
              rfl
            rw [hu] at hhy
            simp only [Option.some.injEq] at hhy
            rw [← hhy]
            rfl
        · rw [List.getLast?_reverse]
          cases hwc : w with
          | nil => exact absurd hwc hwne
          | cons x xs =>
            have hx := List.head?_dropWhile_not (fun c => c != '}') u.reverse
            rw [hwd, hwc] at hx
            have hxe : x = '}' := by simpa using hx
            rw [hxe]
            rfl
        · intro x hx
          have hx2 : x ∈ tk := by simpa using hx
          rw [← htk] at hx2
          have := List.mem_takeWhile_imp hx2
          simpa using this
  · rintro ⟨a, cc, hs, hh, hl, ha, hc⟩
    have htne : t ≠ [] := by
      intro hnil
      rw [hnil] at hh
      simp at hh
    have hab : afterBrace s = some (t ++ cc) := by
      rw [afterBrace_spec]
      refine ⟨a, by rw [hs, List.append_assoc], ha, ?_⟩
      rw [List.head?_append]
      cases ht : t with
      | nil => exact absurd ht htne
      | cons y ys =>
        rw [ht] at hh
        simpa using hh
    unfold extractFirstJson
    rw [hab]
    simp only
    have hdrop : (t ++ cc).reverse.dropWhile (fun c => c != '}') = t.reverse := by
      rw [List.reverse_append, List.dropWhile_append]
      have h1 : cc.reverse.dropWhile (fun c => c != '}') = [] := by
        rw [List.dropWhile_eq_nil_iff]
        intro x hx
        have : x ≠ '}' := hc x (by simpa using hx)
        simpa using this
      rw [h1]
      simp only [List.isEmpty_nil, if_true]
      have h2 : t.reverse.head? = some '}' := by
        rw [List.head?_reverse]
        exact hl
      cases htr : t.reverse with
      | nil => rw [htr] at h2; simp at h2
      | cons x xs =>
        rw [htr] at h2
        simp only [List.head?_cons, Option.some.injEq] at h2
        subst h2
        rfl
    rw [hdrop, List.reverse_reverse]
    rw [if_neg htne]

/-- C7: response extraction takes the first (leftmost-greedy,
dot-matches-newline) brace-delimited substring of the raw reply —
characterized by the unique decomposition `s = a ++ t ++ c` with no
opening brace before `t` and no closing brace after it — and on the
spec's fenced example it extracts exactly the JSON object, ignoring the
surrounding commentary and code fences. -/
theorem c7_theorem :
    (∀ s t, extractFirstJson s = some t ↔ ExtractSpec s t) ∧
    extractFirstJson
        ("Sure, here you go:\n```\n\x7b\"matched\": false, \"reason\": \"no match\"\x7d\n```".data)
      = some ("\x7b\"matched\": false, \"reason\": \"no match\"\x7d".data) :=
  ⟨extractFirstJson_iff, rfl⟩

/-- C7 witness: the characterization applied at a concrete input. -/
theorem c7_witness : ExtractSpec ("abc\x7bxy\x7dz".data) ("\x7bxy\x7d".data) :=
  (c7_theorem.1 _ _).mp rfl

/-! Characterization of the pydantic validation. -/

theorem asOptInt_iff (o : Option Json) : (∃ v, asOptInt o = some v) ↔ FieldOptInt o := by
  cases o with
  | none => simp [asOptInt, FieldOptInt]
  | some j =>
    cases j with
    | num n =>
      obtain ⟨i, f⟩ := n
      cases f <;> simp [asOptInt, FieldOptInt]
    | _ => simp [asOptInt, FieldOptInt]

theorem asOptNum_iff (o : Option Json) : (∃ v, asOptNum o = some v) ↔ FieldOptNum o := by
  cases o with
  | none => simp [asOptNum, FieldOptNum]
  | some j => cases j <;> simp [asOptNum, FieldOptNum]

theorem asOptStr_iff (o : Option Json) : (∃ v, asOptStr o = some v) ↔ FieldOptStr o := by
  cases o with
  | none => simp [asOptStr, FieldOptStr]
  | some j => cases j <;> simp [asOptStr, FieldOptStr]

theorem mapAsStr_iff (xs : List Json) :
    (∃ ss, mapAsStr xs = some ss) ↔ ∀ x ∈ xs, ∃ s, x = .str s := by
  induction xs with
  | nil => simp [mapAsStr]
  | cons x r ih =>
    simp only [mapAsStr]
    constructor
    · rintro ⟨ss, hss⟩
      cases hx : asStr x with
      | none => rw [hx] at hss; simp at hss
      | some s =>
        rw [hx] at hss
        cases hr : mapAsStr r with
        | none => rw [hr] at hss; simp at hss
        | some ys =>
          intro y hy
          rcases List.mem_cons.mp hy with rfl | hy'
          · cases y <;> simp [asStr] at hx
            exact ⟨_, rfl⟩
          · exact (ih.mp ⟨ys, hr⟩) y hy'
    · intro hall
      obtain ⟨s, rfl⟩ := hall x (List.mem_cons_self _ _)
      obtain ⟨ys, hys⟩ := ih.mpr (fun y hy => hall y (List.mem_cons_of_mem _ hy))
      exact ⟨s :: ys, by simp [asStr, hys]⟩

theorem asOptStrList_iff (o : Option Json) :
    (∃ v, asOptStrList o = some v) ↔ FieldOptStrList o := by
  cases o with
  | none => simp [asOptStrList, FieldOptStrList]
  | some j =>
    cases j with
    | arr xs =>
      simp only [asOptStrList, FieldOptStrList]
      constructor
      · rintro ⟨v, hv⟩
        cases hm : mapAsStr xs with
        | none => rw [hm] at hv; simp at hv
        | some ss =>
          refine Or.inr (Or.inr ⟨xs, rfl, ?_⟩)
          exact (mapAsStr_iff xs).mp ⟨ss, hm⟩
      · rintro (h | h | ⟨ys, hys, hall⟩)
        · simp at h
        · simp at h
        · have : ys = xs := by
            have := hys
            simp only [Option.some.injEq, Json.arr.injEq] at this
            exact this.symm
          subst this
          obtain ⟨ss, hss⟩ := (mapAsStr_iff ys).mpr hall
          exact ⟨some ss, by rw [hss]⟩
    | _ => simp [asOptStrList, FieldOptStrList]

theorem modelValidate_isSome_iff (j : Json) :
    (∃ r, modelValidate j = some r) ↔ LooseOk j := by
  cases j with
  | obj fs =>
    simp only [modelValidate]
    cases hm : fs.lookup "matched" with
    | none =>
      simp only [LooseOk]
      constructor
      · rintro ⟨r, hr⟩; simp at hr
      · rintro ⟨fs', hfs, ⟨b, hb⟩, -⟩
        simp only [Json.obj.injEq] at hfs
        subst hfs
        rw [hm] at hb
        cases hb
    | some mj =>
      cases mj with
      | bool b =>
        constructor
        · rintro ⟨r, hr⟩
          cases h1 : asOptInt (fs.lookup "id") with
          | none => rw [h1] at hr; simp at hr
          | some i =>
            cases h2 : asOptStrList (fs.lookup "parameters") with
            | none => rw [h1, h2] at hr; simp at hr
            | some ps =>
              cases h3 : asOptNum (fs.lookup "confidence") with
              | none => rw [h1, h2, h3] at hr; simp at hr
              | some cf =>
                cases h4 : asOptStr (fs.lookup "reason") with
                | none => rw [h1, h2, h3, h4] at hr; simp at hr
                | some rs =>
                  exact ⟨fs, rfl, ⟨b, hm⟩, (asOptInt_iff _).mp ⟨i, h1⟩,
                    (asOptStrList_iff _).mp ⟨ps, h2⟩, (asOptNum_iff _).mp ⟨cf, h3⟩,
                    (asOptStr_iff _).mp ⟨rs, h4⟩⟩
        · rintro ⟨fs', hfs, ⟨b', hb⟩, hint, hlist, hnum, hstr⟩
          simp only [Json.obj.injEq] at hfs
          subst hfs
          obtain ⟨i, h1⟩ := (asOptInt_iff _).mpr hint
          obtain ⟨ps, h2⟩ := (asOptStrList_iff _).mpr hlist
          obtain ⟨cf, h3⟩ := (asOptNum_iff _).mpr hnum
          obtain ⟨rs, h4⟩ := (asOptStr_iff _).mpr hstr
          exact ⟨⟨b, i, ps, cf, rs⟩, by rw [h1, h2, h3, h4]⟩
      | _ =>
        constructor
        · rintro ⟨r, hr⟩; simp at hr
        · rintro ⟨fs', hfs, ⟨b, hb⟩, -⟩
          simp only [Json.obj.injEq] at hfs
          subst hfs
          rw [hm] at hb
          simp at hb
  | _ =>
    constructor
    · rintro ⟨r, hr⟩; simp [modelValidate] at hr
    · rintro ⟨fs', hfs, -⟩; simp at hfs

/-- C4 counterexample: the raw reply consisting only of the JSON object
with a lone boolean `matched` field parses SUCCESSFULLY (pydantic defaults
every other field to `None`), although it conforms to neither of the two
spec shapes — so "fails exactly when ... the extracted JSON does not
conform to the MatchResult shape (exactly one of the two shapes)" is
false. -/
theorem c4_counterexample :
    parseLLMText "\x7b\"matched\": true\x7d".data
      = .ok ⟨true, none, none, none, none⟩ ∧
    jsonParse "\x7b\"matched\": true\x7d".data
      = some (.obj [("matched", .bool true)]) ∧
    specConforms (.obj [("matched", .bool true)]) = false :=
  ⟨rfl, rfl, rfl⟩

/-- C4 (amended): response parsing fails exactly when the raw text has no
brace-delimited substring (no match of the extraction pattern), the
extracted substring is not decodable JSON, or the decoded JSON fails the
loose `LLMResponse` validation (a boolean `matched` plus independently
optional typed fields) — conformance to "exactly one of the two shapes"
is NOT required; the failure is not retried locally (one submit attempt,
no resync) and propagates to the dispatcher's caller. -/
theorem c4_theorem :
    (∀ text : List Char, (∃ r, parseLLMText text = .ok r) ↔
      ∃ t j, extractFirstJson text = some t ∧ jsonParse t = some j ∧ LooseOk j) ∧
    (∀ text : List Char, extractFirstJson text = none ↔ ¬ ∃ t, ExtractSpec text t) ∧
    (∀ (env : Env) (cfg : Config) (ev : Event) (st : ParserState)
       (raw1 raw2 : String) (e : PyError),
      submit env cfg raw1 = .error e →
      coreHandlerMain env cfg ev st raw1 raw2 = ⟨[], some e, 0, 1, [], st⟩) := by
  refine ⟨?_, ?_, ?_⟩
  · intro text
    cases he : extractFirstJson text with
    | none => simp [parseLLMText, he]
    | some t =>
      cases hj : jsonParse t with
      | none => simp [parseLLMText, he, hj]
      | some j =>
        cases hv : modelValidate j with
        | none =>
          simp only [parseLLMText, he, hj, hv, Option.some.injEq]
          constructor
          · rintro ⟨r, hr⟩
            cases hr
          · rintro ⟨t', j', ht', hj', hok⟩
            subst ht'
            rw [hj] at hj'
            cases hj'
            obtain ⟨r, hr⟩ := (modelValidate_isSome_iff j).mpr hok
            rw [hv] at hr
            cases hr
        | some r =>
          simp only [parseLLMText, he, hj, hv, Option.some.injEq]
          constructor
          · intro _
            exact ⟨t, j, rfl, hj, (modelValidate_isSome_iff j).mp ⟨r, hv⟩⟩
          · intro _
            exact ⟨r, rfl⟩
  · intro text
    constructor
    · rintro hnone ⟨t, hspec⟩
      have := (extractFirstJson_iff text t).mpr hspec
      rw [hnone] at this
      cases this
    · intro hno
      cases hx : extractFirstJson text with
      | none => rfl
      | some t => exact absurd ⟨t, (extractFirstJson_iff text t).mp hx⟩ hno
  · intro env cfg ev st raw1 raw2 e h
    unfold coreHandlerMain
    rw [h]

/-- C4 witness: the dispatcher propagates the parse error of a JSON-free
reply unchanged, with no local retry and no resync. -/
theorem c4_witness :
    coreHandlerMain envB cfg0 ev0 stB rawNoJson rawNoJson
      = ⟨[], some .indexError, 0, 1, [], stB⟩ :=
  c4_theorem.2.2 envB cfg0 ev0 stB rawNoJson rawNoJson .indexError rfl

/-! Dispatch helper lemmas. -/

theorem describeResp_ok_params {st : ParserState} {resp : LLMResponse} {d : String}
    (h : describeResp st resp = .ok d) : ∃ ps, resp.parameters = some ps := by
  unfold describeResp at h
  split at h
  · cases h
  · split at h
    · cases h
    · split at h
      · cases h
      · split at h
        · cases h
        · next ps heq => exact ⟨ps, heq⟩

theorem thenBranch_error_msgs {cfg : Config} {ev : Event} {st : ParserState}
    {resp : LLMResponse} {whole : CommandInfo} {meta : StarMetadata} {e : PyError}
    (hhas : hasattr meta.star_cls whole.handler_name = true) :
    (thenBranch cfg ev st resp whole meta).error = some e →
    (thenBranch cfg ev st resp whole meta).messages = [] := by
  unfold thenBranch
  split
  · intro h; cases h
  · split
    · split
      · intro _; rfl
      · intro h; cases h
    · split
      · intro _; rfl
      · next tips htips =>
        split
        · next hlook =>
          exfalso
          rw [hasattr, hlook] at hhas
          cases hhas
        · split
          · next hpn2 =>
            intro _
            show tips = []
            by_cases hm : cfg.matched_tips
            · rw [if_pos hm] at htips
              split at htips
              · cases htips
              · next d hd =>
                obtain ⟨ps, hps⟩ := describeResp_ok_params hd
                rw [hps] at hpn2
                cases hpn2
            · rw [if_neg hm] at htips
              cases htips
              rfl
          · intro h; cases h

theorem retry_error_msgs {env : Env} {cfg : Config} {ev : Event} {st : ParserState}
    {raw : String} {e : PyError} :
    (coreHandlerRetry env cfg ev st raw).error = some e →
    (coreHandlerRetry env cfg ev st raw).messages = [] := by
  unfold coreHandlerRetry
  split
  · intro _; rfl
  · split
    · intro h; cases h
    · split
      · intro _; rfl
      · split
        · intro _; rfl
        · split
          · intro _; rfl
          · split
            · next hhas => exact thenBranch_error_msgs hhas
            · intro _; rfl

theorem main_error_msgs {env : Env} {cfg : Config} {ev : Event} {st : ParserState}
    {raw1 raw2 : String} {e : PyError} :
    (coreHandlerMain env cfg ev st raw1 raw2).error = some e →
    (coreHandlerMain env cfg ev st raw1 raw2).messages = [] := by
  unfold coreHandlerMain
  split
  · intro _; rfl
  · split
    · intro h; cases h
    · split
      · intro _; rfl
      · split
        · intro _; rfl
        · split
          · intro _; rfl
          · split
            · next hcond =>
              simp only [Bool.and_eq_true] at hcond
              exact thenBranch_error_msgs hcond.1
            · split
              · intro _; rfl
              · intro h
                exact retry_error_msgs h

/-- C2 counterexample: a matched dispatch whose target plugin is
deactivated (with the handler name present on the handler class) performs
an automatic catalog resync: the run below resynced once (`resyncs = 1`)
and submitted twice, refuting "performs no automatic catalog resync:
only the resolved-handler-name-missing condition triggers the automatic
resync, never the plugin-deactivated condition" — though it indeed
produced no message and raised no exception. -/
theorem c2_counterexample :
    metaB.activated = false ∧
    hasattr metaB.star_cls cmdB.handler_name = true ∧
    stB.plugin_meta.lookup cmdB.plugin = some metaB ∧
    coreHandlerMain envB cfg0 ev0 stB rawId1 rawId1 = ⟨[], none, 1, 2, [], stB⟩ :=
  ⟨rfl, rfl, rfl, rfl⟩

/-- C2 (amended): for a dispatch of a matched command whose target plugin
is deactivated, the dispatcher produces no outgoing message and raises no
exception, but on a first attempt the plugin-deactivated condition DOES
trigger exactly one automatic catalog resync and one retry; when the
retry still finds the plugin deactivated (handler present), the dispatch
returns silently. -/
theorem c2_theorem (env : Env) (cfg : Config) (ev : Event) (st : ParserState)
    (raw1 raw2 : String) (r1 : LLMResponse) (i1 : Int) (cA : CommandInfo)
    (mA : StarMetadata) (st' : ParserState) (r2 : LLMResponse) (i2 : Int)
    (cB : CommandInfo) (mB : StarMetadata)
    (h1 : submit env cfg raw1 = .ok r1) (h2 : r1.matched = true)
    (h3 : r1.id = some i1) (h4 : st.commands.lookup i1 = some cA)
    (h5 : st.plugin_meta.lookup cA.plugin = some mA) (h6 : mA.activated = false)
    (h7 : rebuildCatalog env st = (st', none))
    (h8 : submit env cfg raw2 = .ok r2) (h9 : r2.matched = true)
    (h10 : r2.id = some i2) (h11 : st'.commands.lookup i2 = some cB)
    (h12 : st'.plugin_meta.lookup cB.plugin = some mB) (h13 : mB.activated = false)
    (h14 : hasattr mB.star_cls cB.handler_name = true) :
    coreHandlerMain env cfg ev st raw1 raw2 = ⟨[], none, 1, 2, [], st'⟩ := by
  unfold coreHandlerMain
  simp only [h1, h2, h3, h4, h5, h6, h7, Bool.and_false, Bool.false_eq_true, if_false,
    coreHandlerRetry, h8, h9, h10, h11, h12, h14, if_true, thenBranch, h13]
  simp

/-- C2 witness: the amended theorem applied to the deactivated-plugin
fixture run. -/
theorem c2_witness :
    coreHandlerMain envB cfg0 ev0 stB rawId1 rawId1 = ⟨[], none, 1, 2, [], stB⟩ :=
  c2_theorem envB cfg0 ev0 stB rawId1 rawId1
    ⟨true, some 1, some [], some ⟨1, none⟩, none⟩ 1 cmdB metaB stB
    ⟨true, some 1, some [], some ⟨1, none⟩, none⟩ 1 cmdB metaB
    rfl rfl rfl rfl rfl rfl rfl rfl rfl rfl rfl rfl rfl rfl

/-- C3 counterexample: on the retry (second attempt) against a
deactivated plugin with an existing handler, the spec's staleness check
("target plugin not currently activated, OR first attempt and handler
missing") fails, so the claim demands a fatal synchronization exception;
the code's actual check ("handler missing, OR first attempt and plugin
not activated") passes, and the dispatch returns silently with no
exception. -/
theorem c3_counterexample :
    specStale false metaB.activated (hasattr metaB.star_cls cmdB.handler_name) = true ∧
    codeStale false metaB.activated (hasattr metaB.star_cls cmdB.handler_name) = false ∧
    coreHandlerMain envB cfg0 ev0 stB rawId1 rawId1 = ⟨[], none, 1, 2, [], stB⟩ :=
  ⟨rfl, rfl, rfl⟩

/-- C3 (amended): the staleness check the dispatcher applies is `codeStale`
— the resolved handler name missing from the plugin's handler class, OR a
first attempt with the target plugin not activated.  When the first
attempt fails this check, the dispatcher performs exactly one full
catalog rebuild and exactly one retry with retrying disabled; if the
retry's handler name is still missing, it raises the fatal
synchronization exception to the caller and never attempts a third
dispatch or a second rebuild. -/
theorem c3_theorem (env : Env) (cfg : Config) (ev : Event) (st : ParserState)
    (raw1 raw2 : String) (r1 : LLMResponse) (i1 : Int) (cA : CommandInfo)
    (mA : StarMetadata) (st' : ParserState) (r2 : LLMResponse) (i2 : Int)
    (cB : CommandInfo) (mB : StarMetadata)
    (h1 : submit env cfg raw1 = .ok r1) (h2 : r1.matched = true)
    (h3 : r1.id = some i1) (h4 : st.commands.lookup i1 = some cA)
    (h5 : st.plugin_meta.lookup cA.plugin = some mA)
    (h6 : codeStale true mA.activated (hasattr mA.star_cls cA.handler_name) = true)
    (h7 : rebuildCatalog env st = (st', none))
    (h8 : submit env cfg raw2 = .ok r2) (h9 : r2.matched = true)
    (h10 : r2.id = some i2) (h11 : st'.commands.lookup i2 = some cB)
    (h12 : st'.plugin_meta.lookup cB.plugin = some mB)
    (h13 : hasattr mB.star_cls cB.handler_name = false) :
    coreHandlerMain env cfg ev st raw1 raw2
      = ⟨[], some (.syncFailed "自动同步无效！"), 1, 2, [], st'⟩ := by
  have hcond : (hasattr mA.star_cls cA.handler_name && mA.activated) = false := by
    revert h6
    unfold codeStale
    cases hasattr mA.star_cls cA.handler_name <;> cases mA.activated <;> simp
  unfold coreHandlerMain
  simp only [h1, h2, h3, h4, h5, hcond, Bool.false_eq_true, if_false, h7,
    coreHandlerRetry, h8, h9, h10, h11, h12, h13]
  simp

/-- C3 witness: the amended theorem applied to the missing-handler
fixture, whose retry still finds the handler missing. -/
theorem c3_witness :
    coreHandlerMain envC cfg0 ev0 stC rawId1 rawId1
      = ⟨[], some (.syncFailed "自动同步无效！"), 1, 2, [], stC⟩ :=
  c3_theorem envC cfg0 ev0 stC rawId1 rawId1
    ⟨true, some 1, some [], some ⟨1, none⟩, none⟩ 1 cmdC1 metaC stC
    ⟨true, some 1, some [], some ⟨1, none⟩, none⟩ 1 cmdC1 metaC
    rfl rfl rfl rfl rfl rfl rfl rfl rfl rfl rfl rfl rfl

/-- C6: the permission filter fails exactly when the requirement is
"admin" and the event's admin predicate is false (every other requirement
string passes unconditionally); and a matched dispatch whose permission
filter fails emits exactly one "matched but unauthorized" quote-reply and
never invokes the handler. -/
theorem c6_theorem :
    (∀ (ev : Event) (require : String),
      permissionFilter ev require = false ↔ (require = "admin" ∧ ev.is_admin = false)) ∧
    (∀ (env : Env) (cfg : Config) (ev : Event) (st : ParserState) (raw1 raw2 : String)
       (r : LLMResponse) (i : Int) (cA : CommandInfo) (mA : StarMetadata) (d : String),
      submit env cfg raw1 = .ok r → r.matched = true → r.id = some i →
      st.commands.lookup i = some cA → st.plugin_meta.lookup cA.plugin = some mA →
      hasattr mA.star_cls cA.handler_name = true → mA.activated = true →
      permissionFilter ev cA.permission = false → describeResp st r = .ok d →
      coreHandlerMain env cfg ev st raw1 raw2
        = ⟨[mkReply ev ("成功匹配指令：" ++ d ++ "，但你无权调用。")], none, 0, 1, [], st⟩) := by
  constructor
  · intro ev require
    unfold permissionFilter
    by_cases h1 : require = "admin"
    · subst h1
      cases h2 : ev.is_admin <;> simp [h2]
    · simp [h1]
  · intro env cfg ev st raw1 raw2 r i cA mA d h1 h2 h3 h4 h5 h6 h7 h8 h9
    unfold coreHandlerMain
    simp only [h1, h2, h3, h4, h5, h6, h7, Bool.and_self, if_true, thenBranch, h8, h9]
    simp [h7]

/-- C6 witness: the admin-only fixture dispatched by a non-admin
requester. -/
theorem c6_witness :
    permissionFilter ev0 "admin" = false ∧
    coreHandlerMain envD cfg0 ev0 stD rawId1P rawId1P
      = ⟨[mkReply ev0 ("成功匹配指令：" ++ "dcmd，参数：x" ++ "，但你无权调用。")],
         none, 0, 1, [], stD⟩ :=
  ⟨(c6_theorem.1 ev0 "admin").mpr ⟨rfl, rfl⟩,
   c6_theorem.2 envD cfg0 ev0 stD rawId1P rawId1P
     ⟨true, some 1, some ["x"], some ⟨1, none⟩, none⟩ 1 cmdD metaD "dcmd，参数：x"
     rfl rfl rfl rfl rfl rfl rfl rfl rfl⟩

/-- C8: a message whose LLM reply has no extractable JSON produces zero
outgoing messages and leaves the parser state unchanged, and the listener
goes on to process the remaining messages exactly as before; more
generally, whenever the dispatch escapes with any exception other than
the plugin's own user-facing type, the listener emits no message at all
(the exception is logged and swallowed). -/
theorem c8_theorem :
    (∀ (env : Env) (cfg : Config) (ev : Event) (st : ParserState) (raw1 raw2 : String)
       (rest : List (Event × String × String)) (p : String),
      getProvider env cfg = .ok p → extractFirstJson raw1.data = none →
      processEvents env cfg st ((ev, raw1, raw2) :: rest)
        = [] :: processEvents env cfg st rest) ∧
    (∀ (env : Env) (cfg : Config) (ev : Event) (st : ParserState) (raw1 raw2 : String)
       (e : PyError),
      (coreHandlerMain env cfg ev st raw1 raw2).error = some e →
      e.isPluginBase = false →
      (globalParser env cfg ev st raw1 raw2).messages = []) := by
  constructor
  · intro env cfg ev st raw1 raw2 rest p hp hext
    have hsubmit : submit env cfg raw1 = .error .indexError := by
      unfold submit
      rw [hp]
      unfold parseLLMText
      rw [hext]
    have hmain : coreHandlerMain env cfg ev st raw1 raw2
        = ⟨[], some .indexError, 0, 1, [], st⟩ := by
      unfold coreHandlerMain
      rw [hsubmit]
    have hgp : globalParser env cfg ev st raw1 raw2 = ⟨[], st⟩ := by
      unfold globalParser
      split
      · rfl
      · simp only [hmain]
        rfl
    simp only [processEvents, hgp]
  · intro env cfg ev st raw1 raw2 e herr hpb
    unfold globalParser
    split
    · rfl
    · simp only [herr]
      rw [hpb]
      simp only [if_false, Bool.false_eq_true]
      exact main_error_msgs herr

/-- C8 witness: one malformed-reply message followed by an empty rest. -/
theorem c8_witness :
    processEvents envB cfg0 stB [(ev0, rawNoJson, rawNoJson)]
      = [] :: processEvents envB cfg0 stB [] :=
  c8_theorem.1 envB cfg0 ev0 stB rawNoJson rawNoJson [] "tp" rfl rfl

/-- C10 counterexample: the original LLM response matched id 1, the
rebuilt catalog still holds the handler-missing command at id 1, yet the
retried dispatch invoked handler `h2` of the command at the NEW
response's id 2 — the retry re-submits to the LLM and resolves the new
response's id, not the original one. -/
theorem c10_counterexample :
    submit envC cfg0 rawId1 = .ok ⟨true, some 1, some [], some ⟨1, none⟩, none⟩ ∧
    (stC.commands.lookup 1).map CommandInfo.handler_name = some "h_missing" ∧
    coreHandlerMain envC cfg0 ev0 stC rawId1 rawId2
      = ⟨[.handlerOut "v2"], none, 1, 2, [("pC", "h2", [])], stC⟩ :=
  ⟨rfl, rfl, rfl⟩

/-- C10 (amended): when the automatic resync runs inside dispatch, the
retry re-invokes the LLM submission and resolves the NEW response's id
against the rebuilt catalog; if that id is absent from the rebuilt maps,
the lookup raises a KeyError which the passive listener swallows (zero
outgoing messages). -/
theorem c10_theorem (env : Env) (cfg : Config) (ev : Event) (st : ParserState)
    (raw1 raw2 : String) (r1 : LLMResponse) (i1 : Int) (cA : CommandInfo)
    (mA : StarMetadata) (st' : ParserState) (r2 : LLMResponse) (i2 : Int)
    (h1 : submit env cfg raw1 = .ok r1) (h2 : r1.matched = true)
    (h3 : r1.id = some i1) (h4 : st.commands.lookup i1 = some cA)
    (h5 : st.plugin_meta.lookup cA.plugin = some mA)
    (h6 : (hasattr mA.star_cls cA.handler_name && mA.activated) = false)
    (h7 : rebuildCatalog env st = (st', none))
    (h8 : submit env cfg raw2 = .ok r2) (h9 : r2.matched = true)
    (h10 : r2.id = some i2) (h11 : st'.commands.lookup i2 = none) :
    coreHandlerMain env cfg ev st raw1 raw2 = ⟨[], some .keyError, 1, 2, [], st'⟩ ∧
    (matchFilter cfg ev = true →
      globalParser env cfg ev st raw1 raw2 = ⟨[], st'⟩) := by
  have hmain : coreHandlerMain env cfg ev st raw1 raw2
      = ⟨[], some .keyError, 1, 2, [], st'⟩ := by
    unfold coreHandlerMain
    simp only [h1, h2, h3, h4, h5, h6, Bool.false_eq_true, if_false, h7,
      coreHandlerRetry, h8, h9, h10, h11]
    simp
  refine ⟨hmain, ?_⟩
  intro hmf
  unfold globalParser
  rw [hmf]
  simp only [hmain]
  rfl

/-- C10 witness: the amended theorem applied to the fixture where the
retry's response id 5 is absent from the rebuilt catalog. -/
theorem c10_witness :
    coreHandlerMain envC cfg0 ev0 stC rawId1 rawId5
      = ⟨[], some .keyError, 1, 2, [], stC⟩ ∧
    (matchFilter cfg0 ev0 = true →
      globalParser envC cfg0 ev0 stC rawId1 rawId5 = ⟨[], stC⟩) :=
  c10_theorem envC cfg0 ev0 stC rawId1 rawId5
    ⟨true, some 1, some [], some ⟨1, none⟩, none⟩ 1 cmdC1 metaC stC
    ⟨true, some 5, some [], some ⟨1, none⟩, none⟩ 5
    rfl rfl rfl rfl rfl rfl rfl rfl rfl rfl rfl

end CmdRouter
